import Mathlib

/-!
Shallow embedding of the veil-privacy JavaScript SDK core
(commitment scheme, note state machine, Merkle proof verification,
encrypted note storage, proof-input assembly), with theorems checking
the natural-language specification against the code.

JavaScript `bigint` values are modelled as `Int` (arbitrary precision,
signed).  The external Poseidon hash service is modelled as an abstract
deterministic function parameter.  Log output (`console.log`) is
modelled as an explicit list of the emitted strings.
-/

deriving instance DecidableEq for Except

namespace Shade

/-! ## Domain constants (src/domain/constants.ts) -/

/-- `SHADE_DOMAIN.AMOUNT_BUCKETS`: the fixed ascending bucket table,
powers of two from 1 up to 2^31. -/
def AMOUNT_BUCKETS : List Int :=
  [1, 2, 4, 8, 16, 32, 64, 128, 256, 512,
   1024, 2048, 4096, 8192, 16384, 32768,
   65536, 131072, 262144, 524288,
   1048576, 2097152, 4194304, 8388608,
   16777216, 33554432, 67108864, 134217728,
   268435456, 536870912, 1073741824, 2147483648]

/-- `SHADE_DOMAIN.MAX_AMOUNT = 2^64 - 1`. -/
def MAX_AMOUNT : Int := 2 ^ 64 - 1

/-- `PoseidonDomain` enum values. -/
def DOMAIN_NOTE_SECRET : Int := 0
def DOMAIN_NULLIFIER : Int := 1
def DOMAIN_COMMITMENT : Int := 2
def DOMAIN_WITHDRAWAL : Int := 3
def DOMAIN_RECOVERY : Int := 4
def DOMAIN_ENCRYPTION : Int := 5

/-- `ErrorCode` values used by the note engine and storage. -/
def NOTE_INVALID_STATE : Nat := 5003
def VALIDATION_INVALID_INPUT : Nat := 7002

/-- `ShadeError`: error object carrying a numeric code and a message. -/
structure ShadeError where
  code : Nat
  message : String
  deriving Repr, DecidableEq

/-! ## Hex / decimal string helpers (JS `BigInt.prototype.toString`) -/

/-- JS `bigint.toString(16)`: lowercase hex digits, `-` prefix for
negative values. -/
def hexRepr (i : Int) : String :=
  if i < 0 then "-" ++ (Nat.toDigits 16 i.natAbs).asString
  else (Nat.toDigits 16 i.natAbs).asString

/-- JS `bigint.toString()` / template-literal interpolation: canonical
decimal representation with `-` prefix for negative values.  This is
exactly Lean's `Int` printing. -/
def decRepr (i : Int) : String := toString i

/-! ## CommitmentBuilder (src/core/commitment_builder.ts)

The `PoseidonClient` implementation is an external microservice client;
its `hash(inputs)` call is modelled as an abstract deterministic
function `H : List Int → Int` on the input list.  Methods that `throw`
are modelled in `Except String` carrying the thrown message. -/

/-- `CommitmentResult`: return value of `buildCommitment`. -/
structure CommitmentResult where
  commitment : Int
  bucketAmount : Int
  rawSecret : Int
  rawNullifier : Int
  rawAssetId : Int
  rawAmount : Int
  deriving Repr, DecidableEq

/-- Largest entry of the bucket table,
`AMOUNT_BUCKETS[AMOUNT_BUCKETS.length - 1]`. -/
def largestBucket : Int := AMOUNT_BUCKETS.getLastD 0

/-- `CommitmentBuilder.findBucket`: first bucket `≥ amount` in the
table; above the largest bucket, `(amount / largestBucket) *
largestBucket` (bigint division truncates; the operands are positive
here, so this is floor division). -/
def findBucket (amount : Int) : Except String Int :=
  if amount ≤ 0 then .error "Amount must be positive"
  else if amount > MAX_AMOUNT then .error "Amount exceeds maximum"
  else
    match AMOUNT_BUCKETS.find? (fun bucket => amount ≤ bucket) with
    | some bucket => .ok bucket
    | none => .ok (amount / largestBucket * largestBucket)

/-- `CommitmentBuilder.validateInputs`: the validation sequence run by
`buildCommitment`, in source order. -/
def validateInputs (secret nullifier assetId amount : Int) :
    Except String Unit :=
  if secret < 0 ∨ 2 ^ 256 ≤ secret then
    .error "Secret must be a 256-bit value"
  else if nullifier < 0 ∨ 2 ^ 256 ≤ nullifier then
    .error "Nullifier must be a 256-bit value"
  else if assetId < 0 then
    .error "Asset ID must be non-negative"
  else if amount ≤ 0 then
    .error "Amount must be positive"
  else if amount > MAX_AMOUNT then
    .error "Amount exceeds maximum"
  else if secret = nullifier then
    .error "Secret and nullifier must be different"
  else
    .ok ()

/-- `CommitmentBuilder.buildCommitment` together with its
`console.log` output.  The hash input list is exactly
`[secret, nullifier, assetId, bucketAmount]`. -/
def buildCommitmentWithLogs (H : List Int → Int)
    (secret nullifier assetId amount : Int) :
    Except String (CommitmentResult × List String) := do
  validateInputs secret nullifier assetId amount
  let bucketAmount ← findBucket amount
  let logs : List String :=
    ["🔢 Building commitment with:",
     "   Secret: 0x" ++ (hexRepr secret).take 16 ++ "...",
     "   Nullifier: 0x" ++ (hexRepr nullifier).take 16 ++ "...",
     "   Asset ID: " ++ decRepr assetId,
     "   Amount: " ++ decRepr amount ++ " -> Bucket: " ++
       decRepr bucketAmount]
  let commitment := H [secret, nullifier, assetId, bucketAmount]
  let logs := logs ++ ["🎯 Generated commitment: 0x" ++ hexRepr commitment]
  return (⟨commitment, bucketAmount, secret, nullifier, assetId, amount⟩,
          logs)

/-- `CommitmentBuilder.buildCommitment`, result only. -/
def buildCommitment (H : List Int → Int)
    (secret nullifier assetId amount : Int) :
    Except String CommitmentResult :=
  (buildCommitmentWithLogs H secret nullifier assetId amount).map Prod.fst

/-- `CommitmentBuilder.validateNullifierInputs`. -/
def validateNullifierInputs (nullifier secret : Int) :
    Except String Unit :=
  if nullifier < 0 ∨ 2 ^ 256 ≤ nullifier then
    .error "Nullifier must be a 256-bit value"
  else if secret < 0 ∨ 2 ^ 256 ≤ secret then
    .error "Secret must be a 256-bit value"
  else
    .ok ()

/-- `CommitmentBuilder.calculateNullifierHash` with its log output:
hashes exactly `[nullifier, secret]`. -/
def calculateNullifierHashWithLogs (H : List Int → Int)
    (nullifier secret : Int) : Except String (Int × List String) := do
  validateNullifierInputs nullifier secret
  let logs : List String :=
    ["🔢 Calculating nullifier hash:",
     "   Nullifier: 0x" ++ (hexRepr nullifier).take 16 ++ "...",
     "   Secret: 0x" ++ (hexRepr secret).take 16 ++ "..."]
  let nullifierHash := H [nullifier, secret]
  let logs := logs ++ ["🎯 Nullifier hash: 0x" ++ hexRepr nullifierHash]
  return (nullifierHash, logs)

/-- `CommitmentBuilder.calculateNullifierHash`, result only. -/
def calculateNullifierHash (H : List Int → Int)
    (nullifier secret : Int) : Except String Int :=
  (calculateNullifierHashWithLogs H nullifier secret).map Prod.fst

/-- `CommitmentBuilder.reconstructCommitment`: unvalidated hash of
`[secret, nullifier, assetId, bucketAmount]`. -/
def reconstructCommitment (H : List Int → Int)
    (secret nullifier assetId bucketAmount : Int) : Int :=
  H [secret, nullifier, assetId, bucketAmount]

/-- `CommitmentBuilder.verifyCommitment`: recomputes bucket and
commitment and compares; returns `false` when `findBucket` throws. -/
def verifyCommitment (H : List Int → Int)
    (commitment secret nullifier assetId amount : Int) : Bool :=
  match findBucket amount with
  | .error _ => false
  | .ok bucketAmount =>
      commitment = reconstructCommitment H secret nullifier assetId bucketAmount

/-! ## MerkleClient (src/merkle/client.ts)

`MerkleProof` fields arrive from the tree service as JSON: `root`,
`leaf` and the `path` entries are strings, `index` is a JS number
(non-negative tree position).  `verifyProof` converts `leaf` and the
path entries with `BigInt(...)` (a throw is caught and yields `false`),
combines levels with the Poseidon parent hash, and finally compares
`currentHash.toString()` with the `root` **string**. -/

structure MerkleProof where
  root : String
  path : List String
  index : Nat
  leaf : String
  deriving Repr, DecidableEq

/-- Whitespace recognized by JS string trimming in numeric conversion. -/
def isJsSpace (c : Char) : Bool :=
  c = ' ' ∨ c = '\t' ∨ c = '\n' ∨ c = '\r'

/-- Value of one digit character in the given base, if valid. -/
def digitVal? (base : Nat) (c : Char) : Option Nat :=
  let v : Option Nat :=
    if '0' ≤ c ∧ c ≤ '9' then some (c.toNat - '0'.toNat)
    else if 'a' ≤ c ∧ c ≤ 'f' then some (c.toNat - 'a'.toNat + 10)
    else if 'A' ≤ c ∧ c ≤ 'F' then some (c.toNat - 'A'.toNat + 10)
    else none
  match v with
  | some d => if d < base then some d else none
  | none => none

/-- Parse a non-empty digit sequence in the given base. -/
def parseDigits (base : Nat) : List Char → Option Nat
  | [] => none
  | cs => cs.foldl
      (fun acc c => do
        let a ← acc
        let d ← digitVal? base c
        pure (a * base + d))
      (some 0)

/-- JS `BigInt(string)` conversion (`StringToBigInt`): trims
whitespace; an empty remainder is `0`; `0x`/`0o`/`0b` prefixes select
the base (no sign allowed with a prefix); otherwise decimal digits with
an optional sign (leading zeros permitted).  `none` models the thrown
`SyntaxError`. -/
def jsBigInt? (s : String) : Option Int :=
  let cs := ((s.toList.dropWhile isJsSpace).reverse.dropWhile isJsSpace).reverse
  match cs with
  | [] => some 0
  | '0' :: 'x' :: rest => (parseDigits 16 rest).map Int.ofNat
  | '0' :: 'X' :: rest => (parseDigits 16 rest).map Int.ofNat
  | '0' :: 'o' :: rest => (parseDigits 8 rest).map Int.ofNat
  | '0' :: 'O' :: rest => (parseDigits 8 rest).map Int.ofNat
  | '0' :: 'b' :: rest => (parseDigits 2 rest).map Int.ofNat
  | '0' :: 'B' :: rest => (parseDigits 2 rest).map Int.ofNat
  | '-' :: rest => (parseDigits 10 rest).map (fun n => -(n : Int))
  | '+' :: rest => (parseDigits 10 rest).map Int.ofNat
  | _ => (parseDigits 10 cs).map Int.ofNat

/-- JS `ToInt32`: truncate to 32 bits and reinterpret as signed. -/
def toInt32 (x : Nat) : Int :=
  let u : Nat := x % 2 ^ 32
  if u < 2 ^ 31 then (u : Int) else (u : Int) - 2 ^ 32

/-- JS `x >> c` on a non-negative number `x`: `ToInt32` the operand,
mask the shift count to 5 bits, arithmetic shift right.  The arithmetic
shift is floor division by `2 ^ count`, which `Int./` performs for this
positive divisor. -/
def jsShr (x : Nat) (c : Nat) : Int :=
  toInt32 x / 2 ^ (c % 32)

/-- The left/right test of the verification loop:
`((proof.index >> i) & 1) === 0`.  `& 1` of an `Int32` is its low bit,
i.e. the non-negative remainder mod 2. -/
def isLeftChild (index : Nat) (i : Nat) : Bool :=
  jsShr index i % 2 = 0

/-- The verification loop of `MerkleClient.verifyProof`, from level `i`
with accumulator `current`; `none` models a thrown `BigInt` conversion
error on a path entry. -/
def verifyLoop (H : Int → Int → Int) (index : Nat) :
    Nat → Int → List String → Option Int
  | _, current, [] => some current
  | i, current, p :: rest =>
    match jsBigInt? p with
    | none => none
    | some sibling =>
        let next := if isLeftChild index i then H current sibling
                    else H sibling current
        verifyLoop H index (i + 1) next rest

/-- `MerkleClient.verifyProof`.  `hashLeaf` returns the leaf value
unchanged (the enabled branch of the source).  The Poseidon parent
combination `hashParent left right` is the oracle `H` applied to the
pair; the oracle is modelled as total (service reachable).  The final
comparison is `currentHash.toString() === proof.root` — string
equality against the canonical decimal representation. -/
def verifyProof (H : Int → Int → Int) (proof : MerkleProof) : Bool :=
  match jsBigInt? proof.leaf with
  | none => false
  | some leafHash =>
    match verifyLoop H proof.index 0 leafHash proof.path with
    | none => false
    | some currentHash => decRepr currentHash = proof.root

/-- `MerkleClient.verifyProofsBatch`: each proof through the same pure
function, results in input order. -/
def verifyProofsBatch (H : Int → Int → Int) (proofs : List MerkleProof) :
    List Bool :=
  proofs.map (verifyProof H)

/-! ### Specification-side Merkle root reconstruction

The spec describes the loop over numeric values: `bit = (index >> i) &
1` read as bit `i` of the natural-number index, `Hash(current,
path[i])` when the bit is 0 and `Hash(path[i], current)` when it is 1.
These definitions follow the spec's words, for comparison with
`verifyProof` above. -/

/-- Bit `i` of `index` as the spec reads it. -/
def specBit (index i : Nat) : Nat := index / 2 ^ i % 2

/-- The spec's reconstruction loop from level `i`. -/
def specFoldAux (H : Int → Int → Int) (index : Nat) :
    Nat → Int → List Int → Int
  | _, current, [] => current
  | i, current, s :: rest =>
      specFoldAux H index (i + 1)
        (if specBit index i = 0 then H current s else H s current) rest

/-- The spec's reconstructed root from the leaf and the sibling
values. -/
def specFold (H : Int → Int → Int) (index : Nat) (leaf : Int)
    (sibs : List Int) : Int :=
  specFoldAux H index 0 leaf sibs

end Shade

namespace Shade.Engine

/-! ## NoteEngine state machine (the `NoteEngine` variant importing
`PoseidonDomain`)

This engine calls a domain-tagged `CommitmentBuilder.hash(domain,
inputs)`.  That method's body is not part of the repository snapshot.
Modelled from the spec: `CommitmentBuilder.hash` is the HashOracle
`hash(domainTag, inputs) -> uint256`, a deterministic domain-separated
hash, taken here as an abstract function parameter
`H : Int → List Int → Int`.

`Date` values (`createdAt`, `updatedAt`, the `new Date()` calls) are
modelled as natural-number timestamps passed in explicitly. -/

inductive NoteState where
  | UNSPENT
  | PENDING_SPEND
  | SPENT
  | RECOVERED
  | CORRUPTED
  deriving Repr, DecidableEq

/-- The string value of each `NoteState` enum member. -/
def NoteState.str : NoteState → String
  | .UNSPENT => "unspent"
  | .PENDING_SPEND => "pending_spend"
  | .SPENT => "spent"
  | .RECOVERED => "recovered"
  | .CORRUPTED => "corrupted"

structure NoteMetadata where
  commitment : Int
  nullifier : Int
  secret : Int
  assetId : Int
  amount : Int
  bucketAmount : Int
  createdAt : Nat
  updatedAt : Nat
  version : Nat
  depositBlock : Option Nat
  depositTxHash : Option String
  deriving Repr, DecidableEq

structure MerklePathData where
  root : Int
  path : List Int
  index : Nat
  blockNumber : Nat
  deriving Repr, DecidableEq

/-- Withdrawal data attached while a spend is pending; the untyped
`proof?: any` payload is modelled as an opaque string. -/
structure WithdrawalData where
  recipient : String
  relayerFee : Int
  protocolFee : Int
  timestamp : Nat
  proof : Option String
  deriving Repr, DecidableEq

structure Note where
  metadata : NoteMetadata
  state : NoteState
  merklePath : Option MerklePathData
  withdrawalData : Option WithdrawalData
  recoveryId : Option String
  deriving Repr, DecidableEq

/-- `NoteEngine.prepareForSpending`: only from `UNSPENT`; returns a new
note value with `state := PENDING_SPEND` and `updatedAt` refreshed to
`now`, all other fields copied by spread. -/
def prepareForSpending (note : Note) (now : Nat) :
    Except ShadeError Note :=
  if note.state ≠ NoteState.UNSPENT then
    .error ⟨NOTE_INVALID_STATE,
            "Note must be UNSPENT, got " ++ note.state.str⟩
  else
    .ok { note with
          state := NoteState.PENDING_SPEND,
          metadata := { note.metadata with updatedAt := now } }

/-- `NoteEngine.markSpent`: from `UNSPENT` or `PENDING_SPEND`; returns
a new note value with `state := SPENT` and `updatedAt := now`, all
other fields copied by spread. -/
def markSpent (note : Note) (now : Nat) : Except ShadeError Note :=
  if note.state ≠ NoteState.PENDING_SPEND ∧
     note.state ≠ NoteState.UNSPENT then
    .error ⟨NOTE_INVALID_STATE,
            "Note must be UNSPENT or PENDING_SPEND, got " ++ note.state.str⟩
  else
    .ok { note with
          state := NoteState.SPENT,
          metadata := { note.metadata with updatedAt := now } }

/-- The bucket table of `NoteEngine.calculateBucketAmount`:
`[0.1, 0.5, 1, 5, 10, 50, 100, 500, 1000].map(b =>
BigInt(Math.floor(b * 1e18)))`.  Each float product evaluates exactly
to the integer below (all nine values are exactly representable
doubles and `0.1 * 1e18` rounds to `1e17`). -/
def weiBuckets : List Int :=
  [100000000000000000, 500000000000000000,
   1000000000000000000, 5000000000000000000,
   10000000000000000000, 50000000000000000000,
   100000000000000000000, 500000000000000000000,
   1000000000000000000000]

/-- `amount > b ? amount - b : b - amount`. -/
def absDiff (amount b : Int) : Int :=
  if amount > b then amount - b else b - amount

/-- `NoteEngine.calculateBucketAmount`: the bucket of `weiBuckets`
**closest** to `amount` (earliest on ties), found by a linear scan
starting from the first bucket. -/
def calculateBucketAmount (amount : Int) : Int :=
  let first : Int := 100000000000000000
  (weiBuckets.tail.foldl
    (fun acc bucket =>
      let diff := absDiff amount bucket
      if diff < acc.2 then (bucket, diff) else acc)
    (first, absDiff amount first)).1

/-- `NoteEngine.validateNote`: recomputes the commitment
`hash(COMMITMENT, [secret, amount, assetId])` and the nullifier
`hash(NULLIFIER, [secret])`, checks `amount > 0` and the bucket against
`calculateBucketAmount`, and returns `(isValid, errors)` without
mutating the note.  The oracle is total, so the `catch` branch is
unreachable. -/
def validateNote (H : Int → List Int → Int) (note : Note) :
    Bool × List String :=
  let errors : List String := []
  let expectedCommitment :=
    H DOMAIN_COMMITMENT
      [note.metadata.secret, note.metadata.amount, note.metadata.assetId]
  let errors := if expectedCommitment ≠ note.metadata.commitment then
      errors ++ ["Commitment does not match secret"] else errors
  let expectedNullifier := H DOMAIN_NULLIFIER [note.metadata.secret]
  let errors := if expectedNullifier ≠ note.metadata.nullifier then
      errors ++ ["Nullifier does not match secret"] else errors
  let errors := if note.metadata.amount ≤ 0 then
      errors ++ ["Amount must be positive"] else errors
  let expectedBucketAmount := calculateBucketAmount note.metadata.amount
  let errors := if expectedBucketAmount ≠ note.metadata.bucketAmount then
      errors ++ ["Bucket amount is incorrect"] else errors
  (errors.isEmpty, errors)

end Shade.Engine

namespace Shade.Notes

/-! ## Core note data (src/core/keys.ts, src/core/notes.ts) -/

/-- `NoteSecrets`: the secret triple. -/
structure NoteSecrets where
  secret : Int
  nullifier : Int
  noteId : Int
  deriving Repr, DecidableEq

/-- `NoteMetadata` of src/core/notes.ts (the variant persisted by the
storage manager). -/
structure NoteMetadata where
  assetId : Int
  amount : Int
  bucketAmount : Int
  timestamp : Nat
  spent : Bool
  commitment : Int
  nullifierHash : Option Int
  deriving Repr, DecidableEq

structure Note where
  secrets : NoteSecrets
  metadata : NoteMetadata
  deriving Repr, DecidableEq

end Shade.Notes

namespace Shade.Storage

/-! ## StorageManager (the storage variant keyed by commitment)

The storage adapter (`get`/`put` over a key-value backend) is modelled
as an association list from keys to records; `put` replaces the record
at the key or appends it.  The AES-GCM `EncryptionService.encrypt`
call is modelled as an abstract function from the serialized plaintext
to an `EncryptedData` blob. -/

structure EncryptedData where
  ciphertext : String
  iv : String
  tag : Option String
  deriving Repr, DecidableEq

structure StoredNote where
  commitment : String
  encryptedSecrets : EncryptedData
  metadata : Shade.Notes.NoteMetadata
  spent : Bool
  createdAt : Nat
  updatedAt : Nat
  deriving Repr, DecidableEq

abbrev Store := List (String × StoredNote)

/-- `adapter.get(key)`. -/
def getRecord (store : Store) (key : String) : Option StoredNote :=
  (store.find? (fun kv => kv.1 = key)).map Prod.snd

/-- `adapter.put(key, value)` (JS `Map.set` / IndexedDB `put`):
overwrite the record at `key`, or append a new entry when the key is
absent. -/
def putRecord : Store → String → StoredNote → Store
  | [], key, value => [(key, value)]
  | kv :: rest, key, value =>
      if kv.1 = key then (key, value) :: rest
      else kv :: putRecord rest key value

/-- The canonical JSON serialization of the secret triple produced by
`storeNote` (`JSON.stringify` of the three decimal strings). -/
def serializeSecrets (secrets : Shade.Notes.NoteSecrets) : String :=
  "\x7b\"secret\":\"" ++ decRepr secrets.secret ++
  "\",\"nullifier\":\"" ++ decRepr secrets.nullifier ++
  "\",\"noteId\":\"" ++ decRepr secrets.noteId ++ "\"\x7d"

/-- `StorageManager.storeNote`: encrypts the serialized secret triple,
writes a record keyed by the commitment's decimal string with plaintext
metadata, `spent := false` and fresh timestamps, and returns the new
store, the storage key, and the emitted log lines. -/
def storeNote (enc : String → EncryptedData) (store : Store)
    (note : Shade.Notes.Note) (now : Nat) (isNode : Bool) :
    Store × String × List String :=
  let secretsJson := serializeSecrets note.secrets
  let encryptedSecrets := enc secretsJson
  let key := decRepr note.metadata.commitment
  let storedNote : StoredNote :=
    { commitment := key
      encryptedSecrets := encryptedSecrets
      metadata := note.metadata
      spent := false
      createdAt := now
      updatedAt := now }
  let logs : List String :=
    ["💾 Note saved to " ++
       (if isNode then "file system" else "IndexedDB"),
     "   Commitment: " ++ key.take 16 ++ "..."]
  (putRecord store key storedNote, key, logs)

/-- `StorageManager.markAsSpent`: read-modify-write of one record; a
missing record is silently skipped (no error, store unchanged). -/
def markAsSpent (store : Store) (commitment : String) (now : Nat) :
    Store :=
  match getRecord store commitment with
  | none => store
  | some stored =>
      putRecord store commitment
        { stored with spent := true, updatedAt := now }

end Shade.Storage

namespace Shade.Prover

/-! ## ProofInputsAssembler (src/prover/inputs.ts)

The Merkle tree service `getProof(commitment)` is modelled as a
function parameter `svc` from the commitment to `Except` (a service
error or not-found rejection is `.error`).  The Poseidon oracle `H` is
shared with the commitment builder; the pairwise parent hash used by
proof verification is `fun a b => H [a, b]`. -/

open Shade

structure PublicInputs where
  root : String
  nullifier : String
  commitmentOut : String
  recipient : String
  fee : String
  deriving Repr, DecidableEq

structure ProofInputs where
  secret : String
  nullifierSecret : String
  noteId : String
  amount : String
  bucketAmount : String
  assetId : String
  merklePath : List String
  merkleIndex : Nat
  publicInputs : PublicInputs
  deriving Repr, DecidableEq

structure AssembleOptions where
  relayerFee : Option Int
  protocolFee : Option Int
  recipient : Option String
  deriving Repr, DecidableEq

/-- `ProofInputsAssembler.assemble`: fetch the proof for the note's
commitment, verify it (fail closed on mismatch), compute the nullifier
hash, build the output commitment from `(secret, nullifier, assetId,
bucketAmount)`, and package public and private inputs. -/
def assemble (H : List Int → Int)
    (svc : Int → Except String MerkleProof)
    (note : Shade.Notes.Note) (options : AssembleOptions) :
    Except String ProofInputs := do
  let merkleProof ← svc note.metadata.commitment
  let proofValid := verifyProof (fun a b => H [a, b]) merkleProof
  if ¬proofValid then
    throw "Invalid Merkle proof for note commitment"
  let nullifierHash ←
    calculateNullifierHash H note.secrets.nullifier note.secrets.secret
  let commitmentOutResult ←
    buildCommitment H note.secrets.secret note.secrets.nullifier
      note.metadata.assetId note.metadata.bucketAmount
  let publicInputs : PublicInputs :=
    { root := merkleProof.root
      nullifier := decRepr nullifierHash
      commitmentOut := decRepr commitmentOutResult.commitment
      recipient := options.recipient.getD "0x0"
      fee := decRepr (options.relayerFee.getD 0) }
  pure
    { secret := decRepr note.secrets.secret
      nullifierSecret := decRepr note.secrets.nullifier
      noteId := decRepr note.secrets.noteId
      amount := decRepr note.metadata.amount
      bucketAmount := decRepr note.metadata.bucketAmount
      assetId := decRepr note.metadata.assetId
      merklePath := merkleProof.path
      merkleIndex := merkleProof.index
      publicInputs := publicInputs }

/-- `ProofInputsAssembler.assembleBatch`:
`Promise.all(notes.map(note => this.assemble(note, options)))` —
every note is assembled with the same options and the combined promise
rejects as soon as any single assembly rejects (modelled sequentially
in array order); there is no option controlling this behaviour. -/
def assembleBatch (H : List Int → Int)
    (svc : Int → Except String MerkleProof)
    (notes : List Shade.Notes.Note) (options : AssembleOptions) :
    Except String (List ProofInputs) :=
  notes.mapM (fun note => assemble H svc note options)

end Shade.Prover

namespace Shade

/-! ## Concrete instances used by witnesses and counterexamples -/

/-- A concrete deterministic hash oracle: the length of the input
list.  It distinguishes a tagged input list from an untagged one. -/
def lenOracle (l : List Int) : Int := l.length

/-- A concrete deterministic hash oracle: the sum of the inputs. -/
def sumOracle (l : List Int) : Int := l.sum

/-- A concrete deterministic domain-tagged hash oracle: the tag plus
the sum of the inputs. -/
def tagSumOracle (d : Int) (l : List Int) : Int := d + l.sum

/-- A concrete deterministic pairwise parent-hash oracle. -/
def pairOracle (a b : Int) : Int := a + b

/-- A concrete engine note in state `UNSPENT`. -/
def exNote5 : Engine.Note :=
  { metadata :=
      { commitment := 8, nullifier := 6, secret := 5, assetId := 0,
        amount := 1, bucketAmount := 1, createdAt := 0, updatedAt := 0,
        version := 1, depositBlock := none, depositTxHash := none }
    state := .UNSPENT
    merklePath := none
    withdrawalData := none
    recoveryId := none }

/-- A concrete engine note whose stored `bucketAmount` equals
`findBucket(amount)` and whose commitment and nullifier are consistent
with `tagSumOracle`: `commitment = 2 + (5 + 1 + 0) = 8`,
`nullifier = 1 + 5 = 6`. -/
def exNote6 : Engine.Note := exNote5

/-- A concrete core note whose proof fetch will fail verification. -/
def exNoteBad : Notes.Note :=
  { secrets := { secret := 1, nullifier := 2, noteId := 3 }
    metadata :=
      { assetId := 0, amount := 256, bucketAmount := 256, timestamp := 0,
        spent := false, commitment := 5, nullifierHash := none } }

/-- A concrete core note whose assembly succeeds. -/
def exNoteGood : Notes.Note :=
  { secrets := { secret := 1, nullifier := 2, noteId := 3 }
    metadata :=
      { assetId := 0, amount := 256, bucketAmount := 256, timestamp := 0,
        spent := false, commitment := 7, nullifierHash := none } }

/-- A concrete Merkle tree service: commitment `5` gets a proof that
does not verify, every other commitment gets a trivially valid empty
proof. -/
def exService (c : Int) : Except String MerkleProof :=
  if c = 5 then .ok ⟨"1", [], 0, "2"⟩
  else .ok ⟨decRepr c, [], 0, decRepr c⟩

/-- Default (empty) assembly options. -/
def exOptions : Prover.AssembleOptions :=
  { relayerFee := none, protocolFee := none, recipient := none }

/-- The plaintext view of a stored entry: every field except the
encrypted-secrets blob. -/
def plaintextView (kv : String × Storage.StoredNote) :
    String × String × Notes.NoteMetadata × Bool × Nat × Nat :=
  (kv.1, kv.2.commitment, kv.2.metadata, kv.2.spent, kv.2.createdAt,
   kv.2.updatedAt)

/-- A 256-bit secret whose first 16 hex digits are
`123456789abcdef0`. -/
def exSecret : Int := 0x123456789abcdef0 * 2 ^ 192

/-- A concrete encryption function (model instance for witnesses). -/
def exEnc (s : String) : Storage.EncryptedData :=
  { ciphertext := s, iv := "iv", tag := none }

/-- Same metadata as `exNoteGood` but different secrets. -/
def exNoteGood2 : Notes.Note :=
  { secrets := { secret := 11, nullifier := 12, noteId := 13 }
    metadata := exNoteGood.metadata }

/-- The log lines `buildCommitment` emits for inputs
`(1, 2, 0, 250)` under `sumOracle`. -/
def exBuildLogs : List String :=
  ["🔢 Building commitment with:",
   "   Secret: 0x1...",
   "   Nullifier: 0x2...",
   "   Asset ID: 0",
   "   Amount: 250 -> Bucket: 256",
   "🎯 Generated commitment: 0x103"]

/-- The log lines `calculateNullifierHash` emits for inputs
`(nullifier = 2, secret = 1)` under `sumOracle`. -/
def exNullifierLogs : List String :=
  ["🔢 Calculating nullifier hash:",
   "   Nullifier: 0x2...",
   "   Secret: 0x1...",
   "🎯 Nullifier hash: 0x3"]

/-- A concrete stored record under key `"5"`. -/
def exStored : Storage.StoredNote :=
  { commitment := "5"
    encryptedSecrets := { ciphertext := "ct", iv := "iv", tag := none }
    metadata := exNoteBad.metadata
    spent := false
    createdAt := 0
    updatedAt := 0 }

/-! ## Theorems -/

/-- In a `≤`-sorted list, `find?` of `x ≤ ·` returns a smallest
element that is `≥ x`. -/
lemma find?_ge_spec (x : Int) :
    ∀ (l : List Int), l.Pairwise (· ≤ ·) →
      ∀ b, l.find? (fun c => x ≤ c) = some b →
        b ∈ l ∧ x ≤ b ∧ ∀ c ∈ l, x ≤ c → b ≤ c := by
  intro l
  induction l with
  | nil => intro _ b h; simp at h
  | cons a t ih =>
    intro hp b h
    rw [List.find?_cons] at h
    by_cases ha : x ≤ a
    · simp [ha] at h
      subst h
      refine ⟨List.mem_cons_self a t, ha, ?_⟩
      intro c hc _
      rcases List.mem_cons.mp hc with rfl | hct
      · exact le_refl c
      · exact (List.pairwise_cons.mp hp).1 c hct
    · simp [ha] at h
      obtain ⟨hbm, hxb, hmin⟩ := ih (List.pairwise_cons.mp hp).2 b h
      refine ⟨List.mem_cons_of_mem a hbm, hxb, ?_⟩
      intro c hc hxc
      rcases List.mem_cons.mp hc with rfl | hct
      · exact absurd hxc ha
      · exact hmin c hct hxc

/-- The bucket table is sorted. -/
lemma amount_buckets_sorted : AMOUNT_BUCKETS.Pairwise (· ≤ ·) := by
  decide

/-- Every bucket is at most `2^31`. -/
lemma amount_buckets_le : ∀ c ∈ AMOUNT_BUCKETS, c ≤ 2147483648 := by
  decide

/-- The full characterization of `findBucket` on valid amounts. -/
lemma findBucket_policy_spec (amount : Int)
    (h1 : 0 < amount) (h2 : amount ≤ MAX_AMOUNT) :
    ∃ b, findBucket amount = .ok b ∧
      (amount ≤ 2147483648 →
        b ∈ AMOUNT_BUCKETS ∧ amount ≤ b ∧
          ∀ c ∈ AMOUNT_BUCKETS, amount ≤ c → b ≤ c) ∧
      (2147483648 < amount → b = amount / 2147483648 * 2147483648) := by
  unfold findBucket
  rw [if_neg (by omega), if_neg (by omega)]
  by_cases hle : amount ≤ 2147483648
  · have hmem : (2147483648 : Int) ∈ AMOUNT_BUCKETS := by decide
    have hsome : (AMOUNT_BUCKETS.find? (fun c => amount ≤ c)).isSome := by
      rw [List.find?_isSome]
      exact ⟨2147483648, hmem, by simpa using hle⟩
    obtain ⟨b, hb⟩ := Option.isSome_iff_exists.mp hsome
    rw [hb]
    refine ⟨b, rfl, fun _ => find?_ge_spec amount AMOUNT_BUCKETS
      amount_buckets_sorted b hb, fun hgt => absurd hle (by omega)⟩
  · have hnone : AMOUNT_BUCKETS.find? (fun c => amount ≤ c) = none := by
      rw [List.find?_eq_none]
      intro c hc
      simpa using (by have := amount_buckets_le c hc; omega : ¬ amount ≤ c)
    rw [hnone]
    have hlast : largestBucket = 2147483648 := by decide
    exact ⟨amount / 2147483648 * 2147483648, by rw [hlast],
      fun hle2 => absurd hle2 hle, fun _ => rfl⟩

/-- C3: for every `amount` with `0 < amount ≤ MAX_AMOUNT`, `findBucket`
succeeds; at or below the largest bucket `2^31` it returns the smallest
table bucket `≥ amount`, and above it it returns
`amount / 2^31 * 2^31` (floor division: the amount rounded down to a
multiple of the largest bucket). -/
theorem findBucket_smallest_bucket_policy (amount : Int)
    (h1 : 0 < amount) (h2 : amount ≤ MAX_AMOUNT) :
    ∃ b, findBucket amount = .ok b ∧
      (amount ≤ 2147483648 →
        b ∈ AMOUNT_BUCKETS ∧ amount ≤ b ∧
          ∀ c ∈ AMOUNT_BUCKETS, amount ≤ c → b ≤ c) ∧
      (2147483648 < amount → b = amount / 2147483648 * 2147483648) :=
  findBucket_policy_spec amount h1 h2

/-- C3 witness: `amount = 250` maps to bucket 256 and
`amount = 3·2^31 + 7` is rounded down to `3·2^31`. -/
theorem findBucket_smallest_bucket_policy_witness :
    (0 : Int) < 250 ∧ (250 : Int) ≤ MAX_AMOUNT ∧
      (∃ b, findBucket 250 = .ok b ∧
        ((250 : Int) ≤ 2147483648 →
          b ∈ AMOUNT_BUCKETS ∧ (250 : Int) ≤ b ∧
            ∀ c ∈ AMOUNT_BUCKETS, (250 : Int) ≤ c → b ≤ c) ∧
        ((2147483648 : Int) < 250 →
          b = 250 / 2147483648 * 2147483648)) :=
  ⟨by norm_num, by norm_num [MAX_AMOUNT],
    findBucket_smallest_bucket_policy 250 (by norm_num)
      (by norm_num [MAX_AMOUNT])⟩

/-- Valid inputs pass `validateInputs`. -/
lemma validateInputs_ok (s n a amt : Int)
    (hs0 : 0 ≤ s) (hs1 : s < 2 ^ 256)
    (hn0 : 0 ≤ n) (hn1 : n < 2 ^ 256) (hsn : s ≠ n) (ha : 0 ≤ a)
    (hamt0 : 0 < amt) (hamt1 : amt ≤ MAX_AMOUNT) :
    validateInputs s n a amt = .ok () := by
  have hM : MAX_AMOUNT = 18446744073709551615 := by decide
  have h256 : (2 : Int) ^ 256 =
      115792089237316195423570985008687907853269984665640564039457584007913129639936 := by
    norm_num
  unfold validateInputs
  rw [if_neg (by omega), if_neg (by omega), if_neg (by omega),
      if_neg (by omega), if_neg (by omega), if_neg hsn]

/-- Valid inputs pass `validateNullifierInputs`. -/
lemma validateNullifierInputs_ok (n s : Int)
    (hn0 : 0 ≤ n) (hn1 : n < 2 ^ 256)
    (hs0 : 0 ≤ s) (hs1 : s < 2 ^ 256) :
    validateNullifierInputs n s = .ok () := by
  unfold validateNullifierInputs
  rw [if_neg (by omega), if_neg (by omega)]

/-- `findBucket` succeeds on every valid amount. -/
lemma findBucket_ok (amt : Int) (hamt0 : 0 < amt)
    (hamt1 : amt ≤ MAX_AMOUNT) : ∃ b, findBucket amt = .ok b := by
  obtain ⟨b, hb, -⟩ := findBucket_policy_spec amt hamt0 hamt1
  exact ⟨b, hb⟩

/-- On valid inputs `buildCommitment` hashes exactly the four-element
list `[secret, nullifier, assetId, bucketAmount]`, and
`calculateNullifierHash` hashes exactly `[nullifier, secret]`. -/
lemma buildCommitment_spec (H : List Int → Int) (s n a amt : Int)
    (hs0 : 0 ≤ s) (hs1 : s < 2 ^ 256)
    (hn0 : 0 ≤ n) (hn1 : n < 2 ^ 256) (hsn : s ≠ n) (ha : 0 ≤ a)
    (hamt0 : 0 < amt) (hamt1 : amt ≤ MAX_AMOUNT) :
    ∃ b, findBucket amt = .ok b ∧
      buildCommitment H s n a amt = .ok ⟨H [s, n, a, b], b, s, n, a, amt⟩ ∧
      calculateNullifierHash H n s = .ok (H [n, s]) := by
  obtain ⟨b, hb⟩ := findBucket_ok amt hamt0 hamt1
  have hv := validateInputs_ok s n a amt hs0 hs1 hn0 hn1 hsn ha hamt0 hamt1
  have hvn := validateNullifierInputs_ok n s hn0 hn1 hs0 hs1
  refine ⟨b, hb, ?_, ?_⟩
  · simp [buildCommitment, buildCommitmentWithLogs, hv, hb, Except.map,
      bind, Except.bind, pure, Except.pure]
  · simp [calculateNullifierHash, calculateNullifierHashWithLogs, hvn,
      Except.map, bind, Except.bind, pure, Except.pure]

/-- C1 (amended): for all valid inputs, `buildCommitment` returns
`commitment = Hash([secret, nullifier, assetId, bucketAmount])` and
`calculateNullifierHash` returns `Hash([nullifier, secret])` — the
hash input lists carry no domain tag. -/
theorem commitment_hash_invocations_untagged (H : List Int → Int)
    (s n a amt : Int)
    (hs0 : 0 ≤ s) (hs1 : s < 2 ^ 256)
    (hn0 : 0 ≤ n) (hn1 : n < 2 ^ 256) (hsn : s ≠ n) (ha : 0 ≤ a)
    (hamt0 : 0 < amt) (hamt1 : amt ≤ MAX_AMOUNT) :
    ∃ b, findBucket amt = .ok b ∧
      buildCommitment H s n a amt = .ok ⟨H [s, n, a, b], b, s, n, a, amt⟩ ∧
      calculateNullifierHash H n s = .ok (H [n, s]) :=
  buildCommitment_spec H s n a amt hs0 hs1 hn0 hn1 hsn ha hamt0 hamt1

/-- C1 witness: concrete valid inputs `(1, 2, 0, 250)`. -/
theorem commitment_hash_invocations_untagged_witness :
    ∃ b, findBucket 250 = .ok b ∧
      buildCommitment List.sum 1 2 0 250 =
        .ok ⟨List.sum [1, 2, 0, b], b, 1, 2, 0, 250⟩ ∧
      calculateNullifierHash List.sum 2 1 = .ok (List.sum [2, 1]) :=
  commitment_hash_invocations_untagged List.sum 1 2 0 250
    (by norm_num) (by norm_num) (by norm_num) (by norm_num)
    (by norm_num) (by norm_num) (by norm_num) (by norm_num [MAX_AMOUNT])

set_option maxRecDepth 8192 in
/-- C1 counterexample: with the deterministic oracle `lenOracle`,
`buildCommitment(1, 2, 0, 250)` yields commitment `4` (the four
untagged inputs) while `Hash(DOMAIN_COMMITMENT, [1, 2, 0, 256]) = 5`,
and `calculateNullifierHash(2, 1)` yields `2` while
`Hash(DOMAIN_NULLIFIER, [2, 1]) = 3`: neither hash invocation includes
the domain tag the claim prescribes. -/
theorem commitment_domain_tag_counterexample :
    (buildCommitment lenOracle 1 2 0 250).map
        CommitmentResult.commitment = .ok 4 ∧
    lenOracle (DOMAIN_COMMITMENT :: [1, 2, 0, 256]) = 5 ∧
    calculateNullifierHash lenOracle 2 1 = .ok 2 ∧
    lenOracle (DOMAIN_NULLIFIER :: [2, 1]) = 3 ∧
    (4 : Int) ≠ 5 ∧ (2 : Int) ≠ 3 := by
  decide

/-- C4: `verifyCommitment` accepts the commitment that
`buildCommitment` produced from the same tuple. -/
theorem verifyCommitment_roundtrip (H : List Int → Int) (s n a amt : Int)
    (hs0 : 0 ≤ s) (hs1 : s < 2 ^ 256)
    (hn0 : 0 ≤ n) (hn1 : n < 2 ^ 256) (hsn : s ≠ n) (ha : 0 ≤ a)
    (hamt0 : 0 < amt) (hamt1 : amt ≤ MAX_AMOUNT) :
    ∃ res, buildCommitment H s n a amt = .ok res ∧
      verifyCommitment H res.commitment s n a amt = true := by
  obtain ⟨b, hb, hbc, -⟩ :=
    buildCommitment_spec H s n a amt hs0 hs1 hn0 hn1 hsn ha hamt0 hamt1
  exact ⟨_, hbc, by simp [verifyCommitment, hb, reconstructCommitment]⟩

/-- C5: `prepareForSpending` succeeds exactly from `UNSPENT` (to
`PENDING_SPEND`) and otherwise raises `NOTE_INVALID_STATE`;
`markSpent` succeeds exactly from `UNSPENT` or `PENDING_SPEND` (to
`SPENT`) and otherwise raises `NOTE_INVALID_STATE`; the chain
`UNSPENT → prepareForSpending → PENDING_SPEND → markSpent → SPENT`
succeeds, and `prepareForSpending` on a `SPENT` note fails with
`NOTE_INVALID_STATE`. -/
theorem note_state_machine_transitions (note : Engine.Note)
    (t1 t2 : Nat) :
    ((∃ n', Engine.prepareForSpending note t1 = .ok n') ↔
        note.state = .UNSPENT) ∧
    (∀ n', Engine.prepareForSpending note t1 = .ok n' →
        n'.state = .PENDING_SPEND) ∧
    (note.state ≠ .UNSPENT →
        ∃ e, Engine.prepareForSpending note t1 = .error e ∧
          e.code = NOTE_INVALID_STATE) ∧
    ((∃ n', Engine.markSpent note t2 = .ok n') ↔
        (note.state = .UNSPENT ∨ note.state = .PENDING_SPEND)) ∧
    (∀ n', Engine.markSpent note t2 = .ok n' → n'.state = .SPENT) ∧
    (note.state ≠ .UNSPENT ∧ note.state ≠ .PENDING_SPEND →
        ∃ e, Engine.markSpent note t2 = .error e ∧
          e.code = NOTE_INVALID_STATE) ∧
    (note.state = .UNSPENT →
        ∃ n1 n2, Engine.prepareForSpending note t1 = .ok n1 ∧
          n1.state = .PENDING_SPEND ∧
          Engine.markSpent n1 t2 = .ok n2 ∧ n2.state = .SPENT) ∧
    (note.state = .SPENT →
        ∃ e, Engine.prepareForSpending note t1 = .error e ∧
          e.code = NOTE_INVALID_STATE) := by
  cases h : note.state <;>
    simp [Engine.prepareForSpending, Engine.markSpent, h,
      NOTE_INVALID_STATE]

/-- C5 witness: a concrete `UNSPENT` note walks the full chain. -/
theorem note_state_machine_transitions_witness :
    ((∃ n', Engine.prepareForSpending exNote5 1 = .ok n') ↔
        exNote5.state = .UNSPENT) ∧
    (∀ n', Engine.prepareForSpending exNote5 1 = .ok n' →
        n'.state = .PENDING_SPEND) ∧
    (exNote5.state ≠ .UNSPENT →
        ∃ e, Engine.prepareForSpending exNote5 1 = .error e ∧
          e.code = NOTE_INVALID_STATE) ∧
    ((∃ n', Engine.markSpent exNote5 2 = .ok n') ↔
        (exNote5.state = .UNSPENT ∨ exNote5.state = .PENDING_SPEND)) ∧
    (∀ n', Engine.markSpent exNote5 2 = .ok n' → n'.state = .SPENT) ∧
    (exNote5.state ≠ .UNSPENT ∧ exNote5.state ≠ .PENDING_SPEND →
        ∃ e, Engine.markSpent exNote5 2 = .error e ∧
          e.code = NOTE_INVALID_STATE) ∧
    (exNote5.state = .UNSPENT →
        ∃ n1 n2, Engine.prepareForSpending exNote5 1 = .ok n1 ∧
          n1.state = .PENDING_SPEND ∧
          Engine.markSpent n1 2 = .ok n2 ∧ n2.state = .SPENT) ∧
    (exNote5.state = .SPENT →
        ∃ e, Engine.prepareForSpending exNote5 1 = .error e ∧
          e.code = NOTE_INVALID_STATE) :=
  note_state_machine_transitions exNote5 1 2

/-- C9: the transitions are pure value-to-value functions; on success
the result differs from the input note only in `state` and
`metadata.updatedAt` (refreshed to `now`) — commitment, secrets,
amounts and all other fields are copied unchanged. -/
theorem transitions_pure_frame (note : Engine.Note) (now : Nat) :
    (note.state = .UNSPENT →
      Engine.prepareForSpending note now =
        .ok { note with
              state := .PENDING_SPEND,
              metadata := { note.metadata with updatedAt := now } }) ∧
    (note.state = .UNSPENT ∨ note.state = .PENDING_SPEND →
      Engine.markSpent note now =
        .ok { note with
              state := .SPENT,
              metadata := { note.metadata with updatedAt := now } }) := by
  constructor
  · intro h
    simp [Engine.prepareForSpending, h]
  · intro h
    rcases h with h | h <;> simp [Engine.markSpent, h]

/-- C9 witness: the frame condition at a concrete `UNSPENT` note. -/
theorem transitions_pure_frame_witness :
    Engine.prepareForSpending exNote5 7 =
      .ok { exNote5 with
            state := .PENDING_SPEND,
            metadata := { exNote5.metadata with updatedAt := 7 } } ∧
    Engine.markSpent exNote5 7 =
      .ok { exNote5 with
            state := .SPENT,
            metadata := { exNote5.metadata with updatedAt := 7 } } :=
  ⟨(transitions_pure_frame exNote5 7).1 rfl,
   (transitions_pure_frame exNote5 7).2 (Or.inl rfl)⟩

/-- C6 (amended): `validateNote` is a pure function returning a
structured error list (the note is not mutated and nothing is thrown);
it reports each error exactly under its condition, and in particular
the bucket error is reported iff the stored `bucketAmount` differs from
`calculateBucketAmount(amount)` — the closest entry of the fixed
18-decimal wei bucket table — not from `findBucket(amount)`. -/
theorem validateNote_error_characterization
    (H : Int → List Int → Int) (note : Engine.Note) :
    ((Engine.validateNote H note).1 = true ↔
        (Engine.validateNote H note).2 = []) ∧
    ("Commitment does not match secret" ∈ (Engine.validateNote H note).2 ↔
        H DOMAIN_COMMITMENT
            [note.metadata.secret, note.metadata.amount,
             note.metadata.assetId] ≠ note.metadata.commitment) ∧
    ("Nullifier does not match secret" ∈ (Engine.validateNote H note).2 ↔
        H DOMAIN_NULLIFIER [note.metadata.secret] ≠
          note.metadata.nullifier) ∧
    ("Amount must be positive" ∈ (Engine.validateNote H note).2 ↔
        note.metadata.amount ≤ 0) ∧
    ("Bucket amount is incorrect" ∈ (Engine.validateNote H note).2 ↔
        Engine.calculateBucketAmount note.metadata.amount ≠
          note.metadata.bucketAmount) := by
  by_cases h1 : H DOMAIN_COMMITMENT
      [note.metadata.secret, note.metadata.amount,
       note.metadata.assetId] = note.metadata.commitment <;>
  by_cases h2 : H DOMAIN_NULLIFIER [note.metadata.secret] =
      note.metadata.nullifier <;>
  by_cases h3 : note.metadata.amount ≤ 0 <;>
  by_cases h4 : Engine.calculateBucketAmount note.metadata.amount =
      note.metadata.bucketAmount <;>
  simp [Engine.validateNote, h1, h2, h3, h4]

/-- C6 counterexample: a note with `amount = 1` and stored
`bucketAmount = 1 = findBucket(1)` and consistent commitment and
nullifier (under the oracle `tagSumOracle`) is still reported with a
bucket error, because `validateNote` compares against
`calculateBucketAmount(1) = 10^17`, not `findBucket(1) = 1`. -/
theorem validateNote_bucket_counterexample :
    Engine.validateNote tagSumOracle exNote6 =
      (false, ["Bucket amount is incorrect"]) ∧
    findBucket exNote6.metadata.amount =
      .ok exNote6.metadata.bucketAmount := by
  decide

/-- `getRecord` on a cons cell. -/
lemma getRecord_cons (kv : String × Storage.StoredNote)
    (store : Storage.Store) (k : String) :
    Storage.getRecord (kv :: store) k =
      if kv.1 = k then some kv.2 else Storage.getRecord store k := by
  unfold Storage.getRecord
  rw [List.find?_cons]
  by_cases h : kv.1 = k <;> simp [h]

/-- `putRecord` followed by `getRecord`: the written key reads back the
written record, every other key is unchanged. -/
lemma getRecord_putRecord (store : Storage.Store) (k : String)
    (v : Storage.StoredNote) (k' : String) :
    Storage.getRecord (Storage.putRecord store k v) k' =
      if k' = k then some v else Storage.getRecord store k' := by
  induction store with
  | nil =>
    unfold Storage.putRecord
    rw [getRecord_cons]
    by_cases h : k' = k
    · subst h; simp
    · have h3 : ¬ (k = k') := fun e => h e.symm
      simp [h, h3]
  | cons kv rest ih =>
    unfold Storage.putRecord
    by_cases h : kv.1 = k
    · rw [if_pos h, getRecord_cons, getRecord_cons]
      by_cases h2 : k' = k
      · subst h2; simp
      · have h3 : ¬ (k = k') := fun e => h2 e.symm
        have h4 : ¬ (kv.1 = k') := by rw [h]; exact h3
        simp [h2, h3, h4]
    · rw [if_neg h, getRecord_cons, getRecord_cons, ih]
      by_cases h2 : kv.1 = k'
      · have h3 : ¬ k' = k := fun e => h (h2.trans e)
        simp [h2, h3]
      · simp [h2]

/-- C10: `markAsSpent` on a missing key is a silent no-op returning the
store unchanged; on a present key it sets exactly `spent := true` and
`updatedAt := now` on that record and leaves every other key
untouched. -/
theorem markAsSpent_missing_silent_noop (store : Storage.Store)
    (commitment : String) (now : Nat) :
    (Storage.getRecord store commitment = none →
      Storage.markAsSpent store commitment now = store) ∧
    (∀ stored, Storage.getRecord store commitment = some stored →
      Storage.getRecord (Storage.markAsSpent store commitment now)
          commitment = some { stored with spent := true,
                                          updatedAt := now } ∧
      ∀ k, k ≠ commitment →
        Storage.getRecord (Storage.markAsSpent store commitment now) k =
          Storage.getRecord store k) := by
  constructor
  · intro h
    unfold Storage.markAsSpent
    rw [h]
  · intro stored h
    unfold Storage.markAsSpent
    rw [h]
    constructor
    · rw [getRecord_putRecord, if_pos rfl]
    · intro k hk
      rw [getRecord_putRecord, if_neg hk]

/-- C10 witness: the empty store (missing key) and a singleton store
(present key) at concrete inputs. -/
theorem markAsSpent_missing_silent_noop_witness :
    Storage.markAsSpent [] "5" 3 = ([] : Storage.Store) ∧
    Storage.getRecord (Storage.markAsSpent [("5", exStored)] "5" 3) "5" =
      some { exStored with spent := true, updatedAt := 3 } :=
  ⟨(markAsSpent_missing_silent_noop [] "5" 3).1 rfl,
   ((markAsSpent_missing_silent_noop [("5", exStored)] "5" 3).2 exStored
      (by decide)).1⟩

/-- C7 (amended): `assembleBatch` assembles every note with the same
options and is unconditionally fail-fast: when every per-note assembly
succeeds it returns all results in input order, and when any single
note's assembly fails the whole batch fails, surfacing no results for
the notes that succeeded; no option selects a different behaviour. -/
theorem assembleBatch_fail_fast (H : List Int → Int)
    (svc : Int → Except String MerkleProof)
    (notes : List Notes.Note) (options : Prover.AssembleOptions) :
    ((∀ note ∈ notes,
        (Prover.assemble H svc note options).isOk = true) →
      ∃ rs, Prover.assembleBatch H svc notes options = .ok rs ∧
        notes.map (fun n => Prover.assemble H svc n options) =
          rs.map .ok) ∧
    ((∃ note ∈ notes,
        (Prover.assemble H svc note options).isOk = false) →
      ∃ e, Prover.assembleBatch H svc notes options = .error e) := by
  constructor
  · intro hall
    induction notes with
    | nil => exact ⟨[], rfl, rfl⟩
    | cons n ns ih =>
      have h1 := hall n (List.mem_cons_self n ns)
      cases ha : Prover.assemble H svc n options with
      | error e => rw [ha] at h1; simp [Except.isOk, Except.toBool] at h1
      | ok r =>
        obtain ⟨rs, hrs, hmap⟩ :=
          ih (fun m hm => hall m (List.mem_cons_of_mem n hm))
        refine ⟨r :: rs, ?_, ?_⟩
        · unfold Prover.assembleBatch at hrs ⊢
          simp only [List.mapM_cons, ha, hrs]
          rfl
        · simp [ha, hmap]
  · rintro ⟨n, hn, hfail⟩
    induction notes with
    | nil => simp at hn
    | cons m ms ih =>
      cases hm : Prover.assemble H svc m options with
      | error e =>
        refine ⟨e, ?_⟩
        unfold Prover.assembleBatch
        simp only [List.mapM_cons, hm]
        rfl
      | ok r =>
        rcases List.mem_cons.mp hn with rfl | hms
        · rw [hm] at hfail; simp [Except.isOk, Except.toBool] at hfail
        · obtain ⟨e, he⟩ := ih hms
          refine ⟨e, ?_⟩
          unfold Prover.assembleBatch at he ⊢
          simp only [List.mapM_cons, hm, he]
          rfl

set_option maxRecDepth 100000 in
/-- C7 witness: a singleton batch of the succeeding note yields its
result list; a singleton batch of the failing note yields an error. -/
theorem assembleBatch_fail_fast_witness :
    (∃ rs, Prover.assembleBatch sumOracle exService [exNoteGood]
        exOptions = .ok rs ∧
      [exNoteGood].map
          (fun n => Prover.assemble sumOracle exService n exOptions) =
        rs.map .ok) ∧
    (∃ e, Prover.assembleBatch sumOracle exService [exNoteBad]
        exOptions = .error e) :=
  ⟨(assembleBatch_fail_fast sumOracle exService [exNoteGood]
      exOptions).1 (by decide),
   (assembleBatch_fail_fast sumOracle exService [exNoteBad]
      exOptions).2 ⟨exNoteBad, by decide, by decide⟩⟩

set_option maxRecDepth 100000 in
/-- C7 counterexample: in the batch `[exNoteBad, exNoteGood]` the
first note's assembly fails (its Merkle proof does not verify) and the
second note's assembly succeeds on its own, yet `assembleBatch`
produces no result list at all — the succeeding note's result is not
surfaced. -/
theorem assembleBatch_counterexample :
    (Prover.assembleBatch sumOracle exService [exNoteBad, exNoteGood]
        exOptions).isOk = false ∧
    (Prover.assemble sumOracle exService exNoteGood exOptions).isOk =
      true := by
  decide

/-- `putRecord` preserves equality of plaintext views. -/
lemma putRecord_plaintextView (k : String)
    (r1 r2 : Storage.StoredNote)
    (h : plaintextView (k, r1) = plaintextView (k, r2)) :
    ∀ (store : Storage.Store),
      (Storage.putRecord store k r1).map plaintextView =
        (Storage.putRecord store k r2).map plaintextView := by
  intro store
  induction store with
  | nil => simpa [Storage.putRecord] using h
  | cons kv rest ih =>
    unfold Storage.putRecord
    by_cases hk : kv.1 = k
    · simpa [hk] using h
    · simpa [hk] using ih

/-- C8 (amended): every plaintext artifact of `storeNote` — the
storage key, the log lines, and each stored entry's key, commitment,
metadata, spent flag and timestamps — is independent of the secret
triple (the secrets reach only the encryption input); however,
`buildCommitment` and `calculateNullifierHash` each log the first 16
hex digits of both the secret and the nullifier in plaintext. -/
theorem storeNote_plaintext_secret_independent :
    (∀ (enc : String → Storage.EncryptedData) (store : Storage.Store)
        (n1 n2 : Notes.Note) (now : Nat) (isNode : Bool),
      n1.metadata = n2.metadata →
        (Storage.storeNote enc store n1 now isNode).2 =
          (Storage.storeNote enc store n2 now isNode).2 ∧
        (Storage.storeNote enc store n1 now isNode).1.map plaintextView =
          (Storage.storeNote enc store n2 now isNode).1.map
            plaintextView) ∧
    (∀ (H : List Int → Int) (s n a amt : Int)
        (res : CommitmentResult) (logs : List String),
      buildCommitmentWithLogs H s n a amt = .ok (res, logs) →
        "   Secret: 0x" ++ (hexRepr s).take 16 ++ "..." ∈ logs ∧
        "   Nullifier: 0x" ++ (hexRepr n).take 16 ++ "..." ∈ logs) ∧
    (∀ (H : List Int → Int) (n s : Int) (res : Int)
        (logs : List String),
      calculateNullifierHashWithLogs H n s = .ok (res, logs) →
        "   Secret: 0x" ++ (hexRepr s).take 16 ++ "..." ∈ logs ∧
        "   Nullifier: 0x" ++ (hexRepr n).take 16 ++ "..." ∈ logs) := by
  refine ⟨?_, ?_, ?_⟩
  · intro enc store n1 n2 now isNode hmeta
    constructor
    · simp [Storage.storeNote, hmeta]
    · unfold Storage.storeNote
      simp only [hmeta]
      exact putRecord_plaintextView _ _ _ (by simp [plaintextView, hmeta])
        store
  · intro H s n a amt res logs h
    unfold buildCommitmentWithLogs at h
    cases hv : validateInputs s n a amt with
    | error e => rw [hv] at h; simp [bind, Except.bind] at h
    | ok u =>
      rw [hv] at h
      cases hb : findBucket amt with
      | error e =>
        rw [hb] at h; simp [bind, Except.bind] at h
      | ok b =>
        rw [hb] at h
        simp only [bind, Except.bind, pure, Except.pure,
          Except.ok.injEq, Prod.mk.injEq] at h
        rw [← h.2]
        constructor <;> simp
  · intro H n s res logs h
    unfold calculateNullifierHashWithLogs at h
    cases hv : validateNullifierInputs n s with
    | error e => rw [hv] at h; simp [bind, Except.bind] at h
    | ok u =>
      rw [hv] at h
      simp only [bind, Except.bind, pure, Except.pure,
        Except.ok.injEq, Prod.mk.injEq] at h
      rw [← h.2]
      constructor <;> simp

set_option maxRecDepth 100000 in
/-- C8 counterexample: calling `buildCommitment` with the 256-bit
secret `0x123456789abcdef0 * 2^192`, or `calculateNullifierHash` with
the same value as the secret, emits a log line containing the first 16
hex digits (64 bits) of that secret in plaintext. -/
theorem storeNote_log_leak_counterexample :
    "   Secret: 0x123456789abcdef0..." ∈
      ((buildCommitmentWithLogs sumOracle exSecret 1 0 250).toOption.map
        Prod.snd).getD [] ∧
    "   Secret: 0x123456789abcdef0..." ∈
      ((calculateNullifierHashWithLogs sumOracle 1
          exSecret).toOption.map Prod.snd).getD [] ∧
    (hexRepr exSecret).take 16 = "123456789abcdef0" ∧
    exSecret < 2 ^ 256 := by
  decide

set_option maxRecDepth 100000 in
/-- C8 witness: concrete notes sharing metadata but with different
secrets produce identical plaintext artifacts, and the concrete
commitment-build and nullifier-hash logs contain the secret's and the
nullifier's hex prefixes. -/
theorem storeNote_plaintext_secret_independent_witness :
    ((Storage.storeNote exEnc [] exNoteGood 0 true).2 =
        (Storage.storeNote exEnc [] exNoteGood2 0 true).2 ∧
      (Storage.storeNote exEnc [] exNoteGood 0 true).1.map
          plaintextView =
        (Storage.storeNote exEnc [] exNoteGood2 0 true).1.map
          plaintextView) ∧
    ("   Secret: 0x" ++ (hexRepr 1).take 16 ++ "..." ∈ exBuildLogs ∧
      "   Nullifier: 0x" ++ (hexRepr 2).take 16 ++ "..." ∈ exBuildLogs) ∧
    ("   Secret: 0x" ++ (hexRepr 1).take 16 ++ "..." ∈ exNullifierLogs ∧
      "   Nullifier: 0x" ++ (hexRepr 2).take 16 ++ "..." ∈
        exNullifierLogs) :=
  ⟨storeNote_plaintext_secret_independent.1 exEnc [] exNoteGood
      exNoteGood2 0 true rfl,
   storeNote_plaintext_secret_independent.2.1 sumOracle 1 2 0 250
      ⟨259, 256, 1, 2, 0, 250⟩ exBuildLogs (by decide),
   storeNote_plaintext_secret_independent.2.2 sumOracle 2 1 3
      exNullifierLogs (by decide)⟩

/-- Low bit of the sliced 32-bit value: below 32 bits, JS `>>` and a
plain natural-number shift agree on the extracted bit. -/
lemma jsShr_bit (x i : Nat) (hi : i < 32) :
    jsShr x i % 2 = ((x / 2 ^ i % 2 : Nat) : Int) := by
  unfold jsShr toInt32
  rw [Nat.mod_eq_of_lt hi]
  have hnat : x % 2 ^ 32 / 2 ^ i % 2 = x / 2 ^ i % 2 := by
    have h32 : (2 : Nat) ^ 32 = 2 ^ i * 2 ^ (32 - i) := by
      rw [← pow_add]; congr 1; omega
    rw [h32, Nat.mod_mul_right_div_self]
    exact Nat.mod_mod_of_dvd _ (dvd_pow_self 2 (by omega))
  have hcast : ∀ u : Nat, ((u : Int) / 2 ^ i % 2) = ((u / 2 ^ i % 2 : Nat) : Int) := by
    intro u
    push_cast
    rfl
  by_cases hlt : x % 2 ^ 32 < 2 ^ 31
  · rw [if_pos hlt, hcast, hnat]
  · rw [if_neg hlt]
    have hpow : ((x % 2 ^ 32 : Nat) : Int) - 2 ^ 32 =
        ((x % 2 ^ 32 : Nat) : Int) + -(2 ^ (32 - i)) * 2 ^ i := by
      have h32 : (2 : Int) ^ (32 - i) * 2 ^ i = 2 ^ 32 := by
        rw [← pow_add]; congr 1; omega
      linarith [h32]
    rw [hpow, Int.add_mul_ediv_right _ _ (by positivity : (2 : Int) ^ i ≠ 0)]
    have heven : -((2 : Int) ^ (32 - i)) = -(2 ^ (31 - i)) * 2 := by
      have : (2 : Int) ^ (31 - i) * 2 = 2 ^ (32 - i) := by
        rw [mul_comm, ← pow_succ']
        · congr 1; omega
      linarith [this]
    rw [heven, Int.add_mul_emod_self, hcast, hnat]

/-- The left/right decision of the code agrees with bit `i` of the
index whenever `i < 32`. -/
lemma isLeftChild_iff (x i : Nat) (hi : i < 32) :
    isLeftChild x i = true ↔ specBit x i = 0 := by
  unfold isLeftChild specBit
  rw [decide_eq_true_iff, jsShr_bit x i hi]
  exact_mod_cast Iff.rfl

/-- The verification loop computes the spec's fold whenever every path
entry parses and the path fits in the 32-bit shift domain. -/
lemma verifyLoop_eq_specFoldAux (H : Int → Int → Int) (index : Nat) :
    ∀ (path : List String) (i : Nat) (current : Int) (sibs : List Int),
      i + path.length ≤ 32 →
      path.mapM jsBigInt? = some sibs →
      verifyLoop H index i current path =
        some (specFoldAux H index i current sibs) := by
  intro path
  induction path with
  | nil =>
    intro i current sibs _ hp
    simp only [List.mapM_nil] at hp
    have : sibs = [] := by simpa using hp.symm
    subst this
    rfl
  | cons p rest ih =>
    intro i current sibs hle hp
    rw [List.mapM_cons] at hp
    cases hjp : jsBigInt? p with
    | none => rw [hjp] at hp; simp at hp
    | some s =>
      rw [hjp] at hp
      cases hrm : rest.mapM jsBigInt? with
      | none => rw [hrm] at hp; simp at hp
      | some ss =>
        rw [hrm] at hp
        have hsibs : sibs = s :: ss := by simpa using hp.symm
        subst hsibs
        have hi : i < 32 := by
          simp only [List.length_cons] at hle; omega
        have hnext : i + 1 + rest.length ≤ 32 := by
          simp only [List.length_cons] at hle; omega
        by_cases hb : specBit index i = 0
        · have hl : isLeftChild index i = true :=
            (isLeftChild_iff index i hi).mpr hb
          simp only [verifyLoop, specFoldAux, hjp, hl, if_true, hb,
            if_pos]
          exact ih (i + 1) (H current s) ss hnext hrm
        · have hl : isLeftChild index i = false := by
            cases h : isLeftChild index i
            · rfl
            · exact absurd ((isLeftChild_iff index i hi).mp h) hb
          simp only [verifyLoop, specFoldAux, hjp, hl, Bool.false_eq_true,
            if_false, hb, if_neg]
          exact ih (i + 1) (H s current) ss hnext hrm

/-- C2 (amended): whenever the leaf and all path entries parse as
numbers and the path length is at most 32 (the JS `>>` domain),
`verifyProof` returns `true` iff the root **string** equals the
canonical decimal representation of the recomputed root — string
comparison, so a numerically equal root written in any other numeral
form is rejected. -/
theorem verifyProof_root_string_comparison (H : Int → Int → Int)
    (proof : MerkleProof) (leaf : Int) (sibs : List Int)
    (hlen : proof.path.length ≤ 32)
    (hleaf : jsBigInt? proof.leaf = some leaf)
    (hpath : proof.path.mapM jsBigInt? = some sibs) :
    verifyProof H proof = true ↔
      proof.root = decRepr (specFold H proof.index leaf sibs) := by
  unfold verifyProof
  simp only [hleaf,
    verifyLoop_eq_specFoldAux H proof.index proof.path 0 leaf sibs
      (by simpa using hlen) hpath,
    specFold, decide_eq_true_iff]
  exact eq_comm

/-- C2 witness: a concrete one-level proof with index 0 verifies iff
its root string is the decimal representation of
`Hash(leaf, path[0])`. -/
theorem verifyProof_root_string_comparison_witness :
    verifyProof pairOracle ⟨"8", ["3"], 0, "5"⟩ = true ↔
      (MerkleProof.mk "8" ["3"] 0 "5").root =
        decRepr (specFold pairOracle 0 5 [3]) :=
  verifyProof_root_string_comparison pairOracle ⟨"8", ["3"], 0, "5"⟩
    5 [3] (by decide) (by decide) (by decide)

/-- C2 counterexample: the proof with leaf `"5"`, empty path and root
`"05"` has final `current = 5` numerically equal to the root value
(`BigInt("05") = 5 = BigInt("5")`), yet `verifyProof` returns `false`
because it compares the strings `"5"` and `"05"`. -/
theorem verifyProof_numeric_root_counterexample :
    verifyProof pairOracle ⟨"05", [], 0, "5"⟩ = false ∧
    jsBigInt? "5" = some 5 ∧ jsBigInt? "05" = some 5 := by
  decide

/-- C4 witness: concrete valid inputs `(1, 2, 0, 250)`. -/
theorem verifyCommitment_roundtrip_witness :
    ∃ res, buildCommitment List.sum 1 2 0 250 = .ok res ∧
      verifyCommitment List.sum res.commitment 1 2 0 250 = true :=
  verifyCommitment_roundtrip List.sum 1 2 0 250
    (by norm_num) (by norm_num) (by norm_num) (by norm_num)
    (by norm_num) (by norm_num) (by norm_num) (by norm_num [MAX_AMOUNT])

end Shade
